import Mathlib

/-!
# Verification of the ESP32 WWVB/NTP clock firmware

Shallow embedding of the firmware's time-keeping, NTP-server, reception-history
and sync-scheduling code, together with theorems checking the natural-language
specification against it.

Conventions:
* C `uint32_t` / `unsigned long` arithmetic is modelled on `Nat` with an
  explicit `% 4294967296` wherever the C code can wrap; `uint16_t` with
  `% 65536`; `uint8_t` counters that the code lets wrap use `% 256`.
* C `int` arithmetic that can go negative (Zeller's congruence) is modelled on
  `Int` with `Int.tdiv` / `Int.tmod`, which match C's truncating `/` and `%`.
* Methods that mutate no member are also given a `...M` state-passing variant
  `state → (value, state)` obtained by translating the method body statement by
  statement, so that frame properties can be stated.
-/

namespace WWVB

/-- `ClockTime` struct from `TimeManager.h` (all fields unsigned). -/
structure ClockTime where
  year : Nat
  month : Nat
  day : Nat
  hour : Nat
  minute : Nat
  second : Nat
deriving Repr, DecidableEq

/-- The private state of `TimeManager` (`TimeManager.h`).  `lastTickMillis` and
`syncMillis` are `unsigned long` (32-bit), `accumMillis` is `uint16_t`. -/
structure TMState where
  year : Nat
  month : Nat
  day : Nat
  hour : Nat
  minute : Nat
  second : Nat
  lastTickMillis : Nat
  syncMillis : Nat
  timeSet : Bool
  accumMillis : Nat
deriving Repr, DecidableEq

/-- `DAYS_IN_MONTH` table from `TimeManager.cpp` (non-leap year). -/
def DAYS_IN_MONTH : List Nat := [31, 28, 31, 30, 31, 30, 31, 31, 30, 31, 30, 31]

/-- `TimeManager::isLeapYear`. -/
def isLeapYear (year : Nat) : Bool :=
  ((year % 4 == 0) && (year % 100 != 0)) || (year % 400 == 0)

/-- `TimeManager::daysInMonth`: table lookup, 29 for a leap-year February,
safe default 30 for an out-of-range month. -/
def daysInMonth (year month : Nat) : Nat :=
  if month < 1 ∨ month > 12 then 30
  else if month = 2 ∧ isLeapYear year then 29
  else DAYS_IN_MONTH.getD (month - 1) 0

/-- Seconds in a calendar year, as computed inside `setUnixTime` and
`getUnixTime` (`isLeapYear(y) ? 366*86400 : 365*86400`). -/
def secondsInYear (year : Nat) : Nat :=
  if isLeapYear year then 366 * 86400 else 365 * 86400

/-- Seconds in a calendar month (`daysInMonth(y,m) * 86400`). -/
def secondsInMonth (year month : Nat) : Nat :=
  daysInMonth year month * 86400

/-- `TimeManager::setTime`: store the fields, stamp both millis trackers with
the current `millis()` value, clear the sub-second accumulator, mark time set. -/
def setTime (year month day hour minute second : Nat) (now : Nat) : TMState :=
  { year := year, month := month, day := day,
    hour := hour, minute := minute, second := second,
    lastTickMillis := now, syncMillis := now,
    timeSet := true, accumMillis := 0 }

/-- `TimeManager::incrementSecond`: cascade second → minute → hour → day →
month → year, with month-length awareness. -/
def incrementSecond (s : TMState) : TMState :=
  if s.second + 1 ≥ 60 then
    if s.minute + 1 ≥ 60 then
      if s.hour + 1 ≥ 24 then
        if s.day + 1 > daysInMonth s.year s.month then
          if s.month + 1 > 12 then
            { s with second := 0, minute := 0, hour := 0,
                     day := 1, month := 1, year := s.year + 1 }
          else
            { s with second := 0, minute := 0, hour := 0,
                     day := 1, month := s.month + 1 }
        else
          { s with second := 0, minute := 0, hour := 0, day := s.day + 1 }
      else
        { s with second := 0, minute := 0, hour := s.hour + 1 }
    else
      { s with second := 0, minute := s.minute + 1 }
  else
    { s with second := s.second + 1 }

/-- The `while (_accumMillis >= 1000)` loop at the end of `TimeManager::tick`. -/
def secondsLoop (s : TMState) : TMState :=
  if _h : 1000 ≤ s.accumMillis then
    secondsLoop (incrementSecond { s with accumMillis := s.accumMillis - 1000 })
  else s
termination_by s.accumMillis
decreasing_by
  have hacc : (incrementSecond { s with accumMillis := s.accumMillis - 1000 }).accumMillis
      = s.accumMillis - 1000 := by
    unfold incrementSecond
    split_ifs <;> rfl
  omega

/-- `TimeManager::tick`: accumulate `millis() - _lastTickMillis` into the
`uint16_t` accumulator (32-bit subtraction, 16-bit store), then convert whole
thousands into seconds.  `now` is the value `millis()` returns during the call. -/
def tick (s : TMState) (now : Nat) : TMState :=
  if s.timeSet = false then s
  else
    let elapsed := (now + 4294967296 - s.lastTickMillis) % 4294967296
    let acc := (s.accumMillis + elapsed) % 65536
    secondsLoop { s with accumMillis := acc, lastTickMillis := now }

/-- The year-counting loop of `TimeManager::setUnixTime`: subtract whole years
starting at 1970 while they fit. -/
def countYears (seconds year : Nat) : Nat × Nat :=
  if h : seconds < secondsInYear year then (year, seconds)
  else countYears (seconds - secondsInYear year) (year + 1)
termination_by seconds
decreasing_by
  have hy : 0 < secondsInYear year := by
    unfold secondsInYear; split <;> omega
  omega

/-- The month-counting loop of `TimeManager::setUnixTime`:
`while (month <= 12)` subtract whole months while they fit. -/
def countMonths (year seconds month : Nat) : Nat × Nat :=
  if h12 : month > 12 then (month, seconds)
  else if h : seconds < secondsInMonth year month then (month, seconds)
  else countMonths year (seconds - secondsInMonth year month) (month + 1)
termination_by 13 - month

/-- The date decomposition performed by `TimeManager::setUnixTime` before it
calls `setTime`. -/
def unixToDate (unixTime : Nat) : Nat × Nat × Nat × Nat × Nat × Nat :=
  let yr := countYears unixTime 1970
  let mr := countMonths yr.1 yr.2 1
  let day := 1 + mr.2 / 86400
  let rem := mr.2 % 86400
  let hour := rem / 3600
  let rem2 := rem % 3600
  let minute := rem2 / 60
  let second := rem2 % 60
  (yr.1, mr.1, day, hour, minute, second)

/-- `TimeManager::setUnixTime`: decompose the Unix timestamp and `setTime`. -/
def setUnixTime (unixTime : Nat) (now : Nat) : TMState :=
  let d := unixToDate unixTime
  setTime d.1 d.2.1 d.2.2.1 d.2.2.2.1 d.2.2.2.2.1 d.2.2.2.2.2 now

/-- The year loop of `TimeManager::getUnixTime`:
`for (y = lo; y < hi; y++) acc += secondsInYear(y)`. -/
def sumYearSecondsFrom (lo hi : Nat) : Nat :=
  if lo < hi then secondsInYear lo + sumYearSecondsFrom (lo + 1) hi else 0
termination_by hi - lo

/-- The month loop of `TimeManager::getUnixTime`:
`for (m = lo; m < hi; m++) acc += secondsInMonth(year, m)`. -/
def sumMonthSecondsFrom (year lo hi : Nat) : Nat :=
  if lo < hi then secondsInMonth year lo + sumMonthSecondsFrom year (lo + 1) hi else 0
termination_by hi - lo

/-- `TimeManager::getUnixTime`: accumulate years, months, days, hours, minutes
and seconds into a `uint32_t` (`_day ≥ 1` in every state `setTime` writes, so
`_day - 1` is ordinary subtraction). -/
def getUnixTime (s : TMState) : Nat :=
  (sumYearSecondsFrom 1970 s.year + sumMonthSecondsFrom s.year 1 s.month
    + (s.day - 1) * 86400 + s.hour * 3600 + s.minute * 60 + s.second) % 4294967296

/-- `TimeManager::getUTCTime`: copy the fields into a `ClockTime`. -/
def getUTCTime (s : TMState) : ClockTime :=
  { year := s.year, month := s.month, day := s.day,
    hour := s.hour, minute := s.minute, second := s.second }

/-- One backward day step of `TimeManager::getLocalTime`'s
`while (newHour < 0)` loop body. -/
def dayBackward (dt : ClockTime) : ClockTime :=
  if dt.day > 1 then { dt with day := dt.day - 1 }
  else if dt.month > 1 then
    { dt with month := dt.month - 1, day := daysInMonth dt.year (dt.month - 1) }
  else
    { dt with year := dt.year - 1, month := 12, day := daysInMonth (dt.year - 1) 12 }

/-- One forward day step of `TimeManager::getLocalTime`'s
`while (newHour >= 24)` loop body. -/
def dayForward (dt : ClockTime) : ClockTime :=
  if dt.day < daysInMonth dt.year dt.month then { dt with day := dt.day + 1 }
  else if dt.month < 12 then { dt with day := 1, month := dt.month + 1 }
  else { dt with day := 1, month := 1, year := dt.year + 1 }

/-- The `while (newHour < 0)` loop of `TimeManager::getLocalTime`. -/
def rollBack (dt : ClockTime) (newHour : Int) : ClockTime × Int :=
  if h : newHour < 0 then rollBack (dayBackward dt) (newHour + 24)
  else (dt, newHour)
termination_by (-newHour).toNat
decreasing_by omega

/-- The `while (newHour >= 24)` loop of `TimeManager::getLocalTime`. -/
def rollForward (dt : ClockTime) (newHour : Int) : ClockTime × Int :=
  if h : 24 ≤ newHour then rollForward (dayForward dt) (newHour - 24)
  else (dt, newHour)
termination_by newHour.toNat
decreasing_by omega

/-- `TimeManager::getLocalTime`: work on a copy of the UTC fields, add the
offset (+1 hour when DST), roll the day/month/year in either direction until
the hour is in 0–23. -/
def getLocalTime (s : TMState) (utcOffset : Int) (dst : Bool) : ClockTime :=
  let dt := getUTCTime s
  let totalOffset : Int := utcOffset + (if dst then 1 else 0)
  let r1 := rollBack dt ((dt.hour : Int) + totalOffset)
  let r2 := rollForward r1.1 r1.2
  { r2.1 with hour := r2.2.toNat }

/-- `TimeManager::getMilliseconds`: recompute the sub-second position from
`_accumMillis` plus the 32-bit elapsed time since the last tick, mod 1000. -/
def getMilliseconds (s : TMState) (now : Nat) : Nat :=
  if s.timeSet = false then 0
  else ((s.accumMillis + (now + 4294967296 - s.lastTickMillis) % 4294967296)
          % 4294967296) % 1000

/-- `TimeManager::isTimeSet`. -/
def isTimeSet (s : TMState) : Bool := s.timeSet

/-- `TimeManager::getSecondsSinceSync`: 32-bit `millis() - _syncMillis`,
divided down to seconds. -/
def getSecondsSinceSync (s : TMState) (now : Nat) : Nat :=
  if s.timeSet = false then 0
  else ((now + 4294967296 - s.syncMillis) % 4294967296) / 1000

/-- State-passing form of `getUTCTime` (the method assigns no member). -/
def getUTCTimeM (s : TMState) : ClockTime × TMState := (getUTCTime s, s)

/-- State-passing form of `getLocalTime` (the rollover is applied to the local
copy `dt` only; no member is assigned). -/
def getLocalTimeM (s : TMState) (utcOffset : Int) (dst : Bool) : ClockTime × TMState :=
  (getLocalTime s utcOffset dst, s)

/-- State-passing form of `getUnixTime` (the method assigns no member). -/
def getUnixTimeM (s : TMState) : Nat × TMState := (getUnixTime s, s)

/-- State-passing form of `getMilliseconds` (the method assigns no member). -/
def getMillisecondsM (s : TMState) (now : Nat) : Nat × TMState := (getMilliseconds s now, s)

/-- State-passing form of `isTimeSet`. -/
def isTimeSetM (s : TMState) : Bool × TMState := (isTimeSet s, s)

/-- State-passing form of `getSecondsSinceSync`. -/
def getSecondsSinceSyncM (s : TMState) (now : Nat) : Nat × TMState :=
  (getSecondsSinceSync s now, s)

/-- `TimeManager::calculateDayOfWeek`: Zeller's congruence on C `int`
arithmetic (`Int.tdiv`/`Int.tmod` are C's truncating `/` and `%`), shifted so
0 = Sunday.  `year - 1` models the `uint16_t` decrement for `year ≥ 1`. -/
def calculateDayOfWeek (year month day : Nat) : Int :=
  let m : Nat := if month < 3 then month + 12 else month
  let y : Nat := if month < 3 then year - 1 else year
  let q : Int := day
  let k : Int := y % 100
  let j : Int := y / 100
  let h : Int := (q + ((13 * ((m : Int) + 1)).tdiv 5) + k + k.tdiv 4 + j.tdiv 4 - 2 * j).tmod 7
  (h + 6).tmod 7

/-!
## NTP server (`NTPServer.cpp`)
Packets are lists of byte values; the `TimeManager` inputs the server reads
(`isTimeSet`, `getUnixTime`, two `getMilliseconds` samples) are passed as
parameters.
-/

/-- `NTP_EPOCH_OFFSET` from `config.h`. -/
def NTP_EPOCH_OFFSET : Nat := 2208988800

/-- `NTPServer::unixToNTP`: `uint32_t` addition of the 1900→1970 offset. -/
def unixToNTP (unixTime : Nat) : Nat := (unixTime + NTP_EPOCH_OFFSET) % 4294967296

/-- `NTPServer::writeUint32`: big-endian byte split
(`(val >> k) & 0xFF` for k = 24, 16, 8, 0). -/
def writeUint32 (val : Nat) : List Nat :=
  [(val >>> 24) &&& 0xFF, (val >>> 16) &&& 0xFF, (val >>> 8) &&& 0xFF, val &&& 0xFF]

/-- `NTPServer::buildResponse`.  `stratum` and `refId` are the server's
`_stratum`/`_refId` members; `ntpNow` is `unixToNTP(getUnixTime())`; `ms` and
`txms` are the two `getMilliseconds()` samples (receive and transmit).  The
`memset` zeroes bytes 4–7 and the reference-timestamp fraction writes bytes
20–23 to zero explicitly. -/
def buildResponse (stratum : Nat) (refId : List Nat) (ntpNow ms txms : Nat)
    (request : List Nat) : List Nat :=
  let clientVersion0 := (request.getD 0 0 >>> 3) &&& 0x07
  let clientVersion := if clientVersion0 < 3 then 3 else clientVersion0
  let ntpFraction := ms * 4294967 % 4294967296
  let txFraction := txms * 4294967 % 4294967296
  [(clientVersion <<< 3) ||| 0x04, stratum, request.getD 2 0, 0xF6]
    ++ [0, 0, 0, 0]
    ++ writeUint32 0x000003E8
    ++ refId
    ++ writeUint32 ntpNow ++ writeUint32 0
    ++ (request.drop 40).take 8
    ++ writeUint32 ntpNow ++ writeUint32 ntpFraction
    ++ writeUint32 ntpNow ++ writeUint32 txFraction

/-- The members of `NTPServer` that `handleClient` can touch (the UDP socket
itself is left outside the model; draining it is reported in `NTPAction`). -/
structure NTPState where
  running : Bool
  requestCount : Nat
  stratum : Nat
  refId : List Nat
deriving Repr, DecidableEq

/-- What one `NTPServer::handleClient` call did to the socket. -/
inductive NTPAction where
  /-- returned without reading a datagram -/
  | idle
  /-- read the undersized datagram and returned without replying -/
  | drained
  /-- read the full 48-byte request and returned without replying -/
  | ignored
  /-- read the request and sent the 48-byte response -/
  | responded (response : List Nat)
deriving Repr, DecidableEq

/-- `NTPServer::handleClient`.  `packetSize` is what `parsePacket` reported
(0 = nothing pending); `request` is the datagram content (the code reads at
most 48 bytes of it); `timeSet`/`unixTime`/`ms`/`txms` are the `TimeManager`
readings during the call. -/
def handleClient (st : NTPState) (packetSize : Nat) (request : List Nat)
    (timeSet : Bool) (unixTime ms txms : Nat) : NTPState × NTPAction :=
  if st.running = false then (st, .idle)
  else if packetSize = 0 then (st, .idle)
  else if packetSize < 48 then (st, .drained)
  else if timeSet = false then (st, .ignored)
  else if unixToNTP unixTime < 3786825600 then (st, .ignored)
  else
    ({ st with requestCount := (st.requestCount + 1) % 4294967296 },
     .responded (buildResponse st.stratum st.refId (unixToNTP unixTime) ms txms request))

/-!
## Reception history (`ReceptionHistory.cpp`)
-/

/-- `HISTORY_BUCKETS` from `ReceptionHistory.h`. -/
def HISTORY_BUCKETS : Nat := 48

/-- State of `ReceptionHistory` (`_buckets` are `uint8_t`, the lifetime
counters are `int`, kept on `Nat`; they never overflow in any realistic run). -/
structure RHState where
  buckets : List Nat
  currentBucket : Nat
  totalSuccess : Nat
  totalAttempts : Nat
  lastSuccessTime : Nat
  lastAttemptTime : Nat
  secondsInCurrentHour : Nat
deriving Repr, DecidableEq

/-- `ReceptionHistory::recordAttempt`: count the attempt, stamp it, and on
success count it, stamp it and bump the current bucket if it is below 255. -/
def recordAttempt (s : RHState) (success : Bool) (now : Nat) : RHState :=
  let s1 := { s with totalAttempts := s.totalAttempts + 1, lastAttemptTime := now }
  if success then
    let b := s1.buckets.getD s1.currentBucket 0
    { s1 with totalSuccess := s1.totalSuccess + 1, lastSuccessTime := now,
              buckets := if b < 255 then s1.buckets.set s1.currentBucket (b + 1)
                         else s1.buckets }
  else s1

/-- `ReceptionHistory::shiftBuckets`: `_buckets[i] = _buckets[i+1]` for
i = 0..46 (each read sees the original value), then zero slot 47. -/
def shiftBuckets (bs : List Nat) : List Nat :=
  ((List.range (HISTORY_BUCKETS - 1)).map fun i => bs.getD (i + 1) 0) ++ [0]

/-- `ReceptionHistory::hourlyTick`: bump the second counter; at 3600 reset it
and shift the buckets. -/
def hourlyTick (s : RHState) : RHState :=
  if s.secondsInCurrentHour + 1 ≥ 3600 then
    { s with secondsInCurrentHour := 0, buckets := shiftBuckets s.buckets }
  else
    { s with secondsInCurrentHour := s.secondsInCurrentHour + 1 }

/-!
## WWVB sync scheduling (`wwvb_clock.ino`)
-/

/-- `SYNC_DAY_MAX_FAILURES` from `config.h`. -/
def SYNC_DAY_MAX_FAILURES : Nat := 3

/-- The two scheduler globals of `wwvb_clock.ino`:
`uint8_t daytimeFailures` and `bool daytimeSkipActive`. -/
structure SyncSched where
  daytimeFailures : Nat
  daytimeSkipActive : Bool
deriving Repr, DecidableEq

/-- The events that touch the two scheduler globals.  `isNight` is the value
`isNighttimeWindow()` returns during the event; `neverSynced` is
`receptionHistory.getLastSuccessTime() == 0`; `elapsedOk` is
`timeSinceLastAttempt >= interval`. -/
inductive SyncEv where
  /-- `recordSyncFailure()` -/
  | fail (isNight : Bool)
  /-- the successful-decode path of `handleES100Interrupt` -/
  | succ
  /-- the per-loop scheduler pass: `getSyncInterval()` then the skip check -/
  | loopCheck (isNight neverSynced elapsedOk : Bool)
deriving Repr, DecidableEq

/-- The flag mutation performed by `getSyncInterval()`:
never-synced returns early; nighttime resets both globals. -/
def getSyncIntervalFlags (s : SyncSched) (isNight neverSynced : Bool) : SyncSched :=
  if neverSynced then s
  else if isNight then { daytimeFailures := 0, daytimeSkipActive := false }
  else s

/-- One scheduler pass of `loop()`: run `getSyncInterval()`'s flag effect,
then compute `skip = daytimeSkipActive && !isNighttimeWindow()` and start an
attempt iff `!skip && timeSinceLastAttempt >= interval`.  Returns the new
globals and whether `startWWVBSync()` was called. -/
def loopSyncCheck (s : SyncSched) (isNight neverSynced elapsedOk : Bool) :
    SyncSched × Bool :=
  let s2 := getSyncIntervalFlags s isNight neverSynced
  let skip := s2.daytimeSkipActive && !isNight
  (s2, !skip && elapsedOk)

/-- `recordSyncFailure()`: during daytime bump the `uint8_t` failure counter
(wrapping mod 256) and latch the skip flag at `SYNC_DAY_MAX_FAILURES`. -/
def recordSyncFailureStep (s : SyncSched) (isNight : Bool) : SyncSched :=
  if isNight then s
  else
    let f := (s.daytimeFailures + 1) % 256
    { daytimeFailures := f,
      daytimeSkipActive := if f ≥ SYNC_DAY_MAX_FAILURES then true else s.daytimeSkipActive }

/-- Transition of the two scheduler globals under one event. -/
def syncStep (s : SyncSched) : SyncEv → SyncSched
  | .fail isNight => recordSyncFailureStep s isNight
  | .succ => { daytimeFailures := 0, daytimeSkipActive := false }
  | .loopCheck isNight neverSynced elapsedOk =>
      (loopSyncCheck s isNight neverSynced elapsedOk).1

/-!
## ES100 register reads (`ES100.cpp`, low-level I2C)
The driver's read transactions are modelled as the sequence of bus conditions
the Arduino `Wire` API emits: `endTransmission(false)` ends the address-write
phase *without* a STOP (the following `requestFrom` begins with a repeated
START), `endTransmission(true)` would emit a STOP first.
-/

/-- A condition or phase on the I2C bus. -/
inductive I2CStep where
  /-- START condition (also a repeated START when no STOP precedes it) -/
  | start
  /-- address byte, write direction -/
  | addrW (a : Nat)
  /-- address byte, read direction -/
  | addrR (a : Nat)
  /-- data byte written -/
  | writeByte (b : Nat)
  /-- `n` data bytes read -/
  | readBytes (n : Nat)
  /-- STOP condition -/
  | stop
deriving Repr, DecidableEq

/-- The `sendStop` argument `ES100::readRegister` passes to
`endTransmission` between the register-address write and the data read:
the source calls `endTransmission(false)`. -/
def readRegisterSendStop : Bool := false

/-- The `sendStop` argument `ES100::readRegisters` passes to
`endTransmission`: the source calls `endTransmission(false)`. -/
def readRegistersSendStop : Bool := false

/-- Bus sequence of a `Wire` write-then-read register access at address
`addr`: `beginTransmission`+`write(reg)`+`endTransmission(sendStop)` followed
by `requestFrom(addr, count)`. -/
def wireReadTransaction (sendStop : Bool) (addr reg count : Nat) : List I2CStep :=
  [I2CStep.start, I2CStep.addrW addr, I2CStep.writeByte reg]
    ++ (if sendStop then [I2CStep.stop] else [])
    ++ [I2CStep.start, I2CStep.addrR addr, I2CStep.readBytes count, I2CStep.stop]

/-- `ES100_I2C_ADDR`. -/
def ES100_I2C_ADDR : Nat := 0x32

/-- Bus sequence emitted by `ES100::readRegister reg`. -/
def readRegisterBusOps (reg : Nat) : List I2CStep :=
  wireReadTransaction readRegisterSendStop ES100_I2C_ADDR reg 1

/-- Bus sequence emitted by `ES100::readRegisters startReg count`. -/
def readRegistersBusOps (startReg count : Nat) : List I2CStep :=
  wireReadTransaction readRegistersSendStop ES100_I2C_ADDR startReg count

/-!
## US DST rule (`computeUSDST` in `wwvb_clock.ino`)
-/

/-- The March threshold `secondSunday = (1 + (7 - dow1) % 7) + 7` computed by
`computeUSDST` from `calculateDayOfWeek(year, 3, 1)`. -/
def secondSundayOfMarch (year : Nat) : Int :=
  (1 + (7 - calculateDayOfWeek year 3 1).tmod 7) + 7

/-- The November threshold `firstSunday = 1 + (7 - dow1) % 7` computed by
`computeUSDST` from `calculateDayOfWeek(year, 11, 1)`. -/
def firstSundayOfNovember (year : Nat) : Int :=
  1 + (7 - calculateDayOfWeek year 11 1).tmod 7

/-- The month/day/hour rule `computeUSDST` applies to the local standard time
it obtained (body of the function after the `getLocalTime` call). -/
def usDSTRule (lt : ClockTime) : Bool :=
  if lt.month < 3 ∨ 11 < lt.month then false
  else if 3 < lt.month ∧ lt.month < 11 then true
  else if lt.month = 3 then
    decide (secondSundayOfMarch lt.year < (lt.day : Int)
      ∨ ((lt.day : Int) = secondSundayOfMarch lt.year ∧ 2 ≤ lt.hour))
  else
    decide ((lt.day : Int) < firstSundayOfNovember lt.year
      ∨ ((lt.day : Int) = firstSundayOfNovember lt.year ∧ lt.hour < 2))

/-- `computeUSDST`: false while time is unset, otherwise the rule applied to
`getLocalTime(utcOffset, false)` — local *standard* time, DST not applied. -/
def computeUSDST (s : TMState) (utcOffset : Int) : Bool :=
  if isTimeSet s = false then false
  else usDSTRule (getLocalTime s utcOffset false)

/-!
## NVS time restore (`loadTimeFromPreferences` in `wwvb_clock.ino`)
-/

/-- The time-restoring tail of `loadTimeFromPreferences`: `setTime` with the
saved fields, then — when the 32-bit elapsed time since the save is under one
hour — `elapsedSeconds` back-to-back calls of `timeManager.tick()`.  The loop
body contains no delay, so every `tick()` call observes the same `millis()`
value `nowMillis`, which is passed to each call. -/
def loadTimeReplay (year month day hour minute second : Nat)
    (saveMillis nowMillis : Nat) : TMState :=
  let st := setTime year month day hour minute second nowMillis
  let elapsedMillis := (nowMillis + 4294967296 - saveMillis) % 4294967296
  if elapsedMillis < 3600000 then
    (fun s => tick s nowMillis)^[elapsedMillis / 1000] st
  else st

/-!
## Theorems
-/

/-- **C10**: the read operations `getUTCTime`, `getLocalTime`, `getUnixTime`,
`getMilliseconds`, `isTimeSet` and `getSecondsSinceSync` leave every member of
the `TimeManager` state unchanged, for every state: their state-passing
translations return the input state.  In particular `getLocalTime`'s rollover
happens only on the returned copy. -/
theorem c10_reads_leave_state_unchanged (s : TMState) (utcOffset : Int)
    (dst : Bool) (now : Nat) :
    (getUTCTimeM s).2 = s
    ∧ (getLocalTimeM s utcOffset dst).2 = s
    ∧ (getUnixTimeM s).2 = s
    ∧ (getMillisecondsM s now).2 = s
    ∧ (isTimeSetM s).2 = s
    ∧ (getSecondsSinceSyncM s now).2 = s :=
  ⟨rfl, rfl, rfl, rfl, rfl, rfl⟩

/-- **C1**: for every 48-byte request, the response built by
`NTPServer::buildResponse` has byte 0 = `(max(clientVersion,3) << 3) | 4`
(with `clientVersion` = bits 3–5 of request byte 0), byte 1 = the configured
stratum, byte 2 = request byte 2, byte 3 = `0xF6`, bytes 12–15 = the 4-byte
reference identifier, and bytes 24–31 = request bytes 40–47 verbatim. -/
theorem c1_buildResponse_fields (stratum : Nat) (refId : List Nat)
    (ntpNow ms txms : Nat) (request : List Nat)
    (hreq : request.length = 48) (href : refId.length = 4) :
    (buildResponse stratum refId ntpNow ms txms request).getD 0 0
        = ((max ((request.getD 0 0 >>> 3) &&& 0x07) 3) <<< 3) ||| 0x04
    ∧ (buildResponse stratum refId ntpNow ms txms request).getD 1 0 = stratum
    ∧ (buildResponse stratum refId ntpNow ms txms request).getD 2 0 = request.getD 2 0
    ∧ (buildResponse stratum refId ntpNow ms txms request).getD 3 0 = 0xF6
    ∧ (∀ i, i < 4 →
        (buildResponse stratum refId ntpNow ms txms request).getD (12 + i) 0
          = refId.getD i 0)
    ∧ (∀ i, i < 8 →
        (buildResponse stratum refId ntpNow ms txms request).getD (24 + i) 0
          = request.getD (40 + i) 0) := by
  rcases refId with _ | ⟨r0, _ | ⟨r1, _ | ⟨r2, _ | ⟨r3, rest⟩⟩⟩⟩ <;>
    simp only [List.length_cons, List.length_nil] at href
  · omega
  · omega
  · omega
  · omega
  have hrest : rest = [] := by
    cases rest with
    | nil => rfl
    | cons a t => simp only [List.length_cons] at href; omega
  subst hrest
  have hmax : (if ((request.getD 0 0 >>> 3) &&& 0x07) < 3 then 3
      else ((request.getD 0 0 >>> 3) &&& 0x07))
      = max ((request.getD 0 0 >>> 3) &&& 0x07) 3 := by
    split <;> omega
  have hresp : buildResponse stratum [r0, r1, r2, r3] ntpNow ms txms request
      = [(max ((request.getD 0 0 >>> 3) &&& 0x07) 3) <<< 3 ||| 0x04, stratum,
         request.getD 2 0, 0xF6, 0, 0, 0, 0,
         (0x3E8 >>> 24) &&& 0xFF, (0x3E8 >>> 16) &&& 0xFF,
         (0x3E8 >>> 8) &&& 0xFF, 0x3E8 &&& 0xFF,
         r0, r1, r2, r3,
         (ntpNow >>> 24) &&& 0xFF, (ntpNow >>> 16) &&& 0xFF,
         (ntpNow >>> 8) &&& 0xFF, ntpNow &&& 0xFF,
         (0 >>> 24) &&& 0xFF, (0 >>> 16) &&& 0xFF, (0 >>> 8) &&& 0xFF, 0 &&& 0xFF]
        ++ ((request.drop 40).take 8
        ++ [(ntpNow >>> 24) &&& 0xFF, (ntpNow >>> 16) &&& 0xFF,
            (ntpNow >>> 8) &&& 0xFF, ntpNow &&& 0xFF,
            ((ms * 4294967 % 4294967296) >>> 24) &&& 0xFF,
            ((ms * 4294967 % 4294967296) >>> 16) &&& 0xFF,
            ((ms * 4294967 % 4294967296) >>> 8) &&& 0xFF,
            (ms * 4294967 % 4294967296) &&& 0xFF,
            (ntpNow >>> 24) &&& 0xFF, (ntpNow >>> 16) &&& 0xFF,
            (ntpNow >>> 8) &&& 0xFF, ntpNow &&& 0xFF,
            ((txms * 4294967 % 4294967296) >>> 24) &&& 0xFF,
            ((txms * 4294967 % 4294967296) >>> 16) &&& 0xFF,
            ((txms * 4294967 % 4294967296) >>> 8) &&& 0xFF,
            (txms * 4294967 % 4294967296) &&& 0xFF]) := by
    simp only [buildResponse, writeUint32, hmax, List.append_assoc, List.cons_append,
      List.nil_append]
  refine ⟨?_, ?_, ?_, ?_, ?_, ?_⟩
  · rw [hresp]; rfl
  · rw [hresp]; rfl
  · rw [hresp]; rfl
  · rw [hresp]; rfl
  · intro i hi
    interval_cases i <;> (rw [hresp]; rfl)
  · intro i hi
    have hlen24 : ([(max ((request.getD 0 0 >>> 3) &&& 0x07) 3) <<< 3 ||| 0x04, stratum,
         request.getD 2 0, 0xF6, 0, 0, 0, 0,
         (0x3E8 >>> 24) &&& 0xFF, (0x3E8 >>> 16) &&& 0xFF,
         (0x3E8 >>> 8) &&& 0xFF, 0x3E8 &&& 0xFF,
         r0, r1, r2, r3,
         (ntpNow >>> 24) &&& 0xFF, (ntpNow >>> 16) &&& 0xFF,
         (ntpNow >>> 8) &&& 0xFF, ntpNow &&& 0xFF,
         (0 >>> 24) &&& 0xFF, (0 >>> 16) &&& 0xFF, (0 >>> 8) &&& 0xFF,
         0 &&& 0xFF] : List Nat).length = 24 := by rfl
    rw [hresp, List.getD_append_right _ _ _ _ (by rw [hlen24]; omega)]
    rw [hlen24]
    have h24 : 24 + i - 24 = i := by omega
    rw [h24]
    have hmidlen : ((request.drop 40).take 8).length = 8 := by
      simp [hreq]
    rw [List.getD_append _ _ _ _ (by rw [hmidlen]; omega)]
    simp [List.getD, List.getElem?_take_of_lt hi, List.getElem?_drop]

/-- **C1 witness**: the theorem applied to the all-zeros version-3 request,
stratum 1, reference id "WWVB". -/
theorem c1_witness :
    (List.replicate 48 0x1B).length = 48 ∧ ([0x57, 0x57, 0x56, 0x42] : List Nat).length = 4
    ∧ (buildResponse 1 [0x57, 0x57, 0x56, 0x42] 3913056000 0 0
        (List.replicate 48 0x1B)).getD 0 0
        = ((max (((List.replicate 48 0x1B).getD 0 0 >>> 3) &&& 0x07) 3) <<< 3) ||| 0x04 :=
  ⟨by decide, by decide,
    (c1_buildResponse_fields 1 [0x57, 0x57, 0x56, 0x42] 3913056000 0 0
      (List.replicate 48 0x1B) (by decide) (by decide)).1⟩

/-- **C3**: with the server running, `NTPServer::handleClient` sends a response
iff a pending datagram has at least 48 bytes, the clock engine's time is set,
and the 1900-epoch time is at least 3786825600; an undersized pending datagram
is drained without a response and without touching the server state, and a
full-size request with time unset or an implausibly old timestamp is ignored
with the server state unchanged. -/
theorem c3_handleClient_response_conditions (st : NTPState) (packetSize : Nat)
    (request : List Nat) (timeSet : Bool) (unixTime ms txms : Nat)
    (hrun : st.running = true) :
    ((∃ resp, (handleClient st packetSize request timeSet unixTime ms txms).2
        = NTPAction.responded resp)
      ↔ (48 ≤ packetSize ∧ timeSet = true ∧ 3786825600 ≤ unixToNTP unixTime))
    ∧ (0 < packetSize → packetSize < 48 →
        handleClient st packetSize request timeSet unixTime ms txms
          = (st, NTPAction.drained))
    ∧ (48 ≤ packetSize → timeSet = false →
        handleClient st packetSize request timeSet unixTime ms txms
          = (st, NTPAction.ignored))
    ∧ (48 ≤ packetSize → timeSet = true → unixToNTP unixTime < 3786825600 →
        handleClient st packetSize request timeSet unixTime ms txms
          = (st, NTPAction.ignored)) := by
  have h0 : ¬ st.running = false := by simp [hrun]
  unfold handleClient
  rw [if_neg h0]
  refine ⟨?_, ?_, ?_, ?_⟩
  · constructor
    · rintro ⟨resp, hresp⟩
      split_ifs at hresp with h1 h2 h3 h4
      all_goals simp only [] at hresp
      refine ⟨by omega, ?_, by omega⟩
      cases timeSet
      · exact absurd rfl h3
      · rfl
    · rintro ⟨h48, hset, hts⟩
      subst hset
      rw [if_neg (by omega), if_neg (by omega), if_neg (by simp), if_neg (by omega)]
      exact ⟨_, rfl⟩
  · intro hpos hlt
    rw [if_neg (by omega), if_pos hlt]
  · intro h48 hset
    subst hset
    rw [if_neg (by omega), if_neg (by omega), if_pos rfl]
  · intro h48 hset hts
    subst hset
    rw [if_neg (by omega), if_neg (by omega), if_neg (by simp), if_pos hts]

/-- **C3 witness**: the theorem applied to a running server receiving a
48-byte request in 2025 with time set. -/
theorem c3_witness :
    (⟨true, 0, 1, [0x57, 0x57, 0x56, 0x42]⟩ : NTPState).running = true
    ∧ ((∃ resp, (handleClient ⟨true, 0, 1, [0x57, 0x57, 0x56, 0x42]⟩ 48
          (List.replicate 48 0) true 1735689600 0 0).2 = NTPAction.responded resp)
        ↔ (48 ≤ 48 ∧ (true = true) ∧ 3786825600 ≤ unixToNTP 1735689600)) :=
  ⟨rfl, (c3_handleClient_response_conditions ⟨true, 0, 1, [0x57, 0x57, 0x56, 0x42]⟩
    48 (List.replicate 48 0) true 1735689600 0 0 rfl).1⟩

/-- Helper: one successful `recordAttempt` bumps the newest bucket below 255
and saturates at 255, preserving the bucket index and array length. -/
theorem recordAttempt_true_bucket (s : RHState) (now : Nat)
    (hcb : s.currentBucket = 47) (hlen : s.buckets.length = 48) :
    (recordAttempt s true now).buckets.getD 47 0
      = (if s.buckets.getD 47 0 < 255 then s.buckets.getD 47 0 + 1
         else s.buckets.getD 47 0)
    ∧ (recordAttempt s true now).currentBucket = 47
    ∧ (recordAttempt s true now).buckets.length = 48 := by
  refine ⟨?_, hcb, ?_⟩
  · show (if s.buckets.getD s.currentBucket 0 < 255
        then s.buckets.set s.currentBucket (s.buckets.getD s.currentBucket 0 + 1)
        else s.buckets).getD 47 0 = _
    rw [hcb]
    by_cases hb : s.buckets.getD 47 0 < 255
    · rw [if_pos hb, if_pos hb]
      simp [List.getD, List.getElem?_set, hlen]
    · rw [if_neg hb, if_neg hb]
  · show (if s.buckets.getD s.currentBucket 0 < 255
        then s.buckets.set s.currentBucket (s.buckets.getD s.currentBucket 0 + 1)
        else s.buckets).length = 48
    split
    · simp [hlen]
    · exact hlen

/-- Helper: `k` successful `recordAttempt` calls move the newest bucket from
`v ≤ 255` to `min (v + k) 255`. -/
theorem recordAttempt_true_iter_bucket (now : Nat) (k : Nat) :
    ∀ s : RHState, s.currentBucket = 47 → s.buckets.length = 48 →
      s.buckets.getD 47 0 ≤ 255 →
      ((fun st => recordAttempt st true now)^[k] s).buckets.getD 47 0
        = min (s.buckets.getD 47 0 + k) 255 := by
  induction k with
  | zero => intro s _ _ hv; simpa using (Nat.min_eq_left hv).symm
  | succ k ih =>
    intro s hcb hlen hv
    rw [Function.iterate_succ_apply]
    obtain ⟨hval, hcb', hlen'⟩ := recordAttempt_true_bucket s now hcb hlen
    have hv' : (recordAttempt s true now).buckets.getD 47 0 ≤ 255 := by
      rw [hval]; split <;> omega
    rw [ih _ hcb' hlen' hv', hval]
    split <;> omega

/-- Helper: while fewer than 3600 seconds have accumulated, `hourlyTick` only
advances the second counter. -/
theorem hourlyTick_iter_no_shift (n : Nat) :
    ∀ s : RHState, s.secondsInCurrentHour + n < 3600 →
      hourlyTick^[n] s = { s with secondsInCurrentHour := s.secondsInCurrentHour + n } := by
  induction n with
  | zero => intro s _; simp
  | succ n ih =>
    intro s hn
    rw [Function.iterate_succ_apply]
    have hstep : hourlyTick s = { s with secondsInCurrentHour := s.secondsInCurrentHour + 1 } := by
      unfold hourlyTick
      rw [if_neg (by omega)]
    rw [hstep, ih _ (by show s.secondsInCurrentHour + 1 + n < 3600; omega)]
    have harith : s.secondsInCurrentHour + 1 + n = s.secondsInCurrentHour + (n + 1) := by omega
    show ({ s with secondsInCurrentHour := s.secondsInCurrentHour + 1 + n } : RHState) = _
    rw [harith]

/-- Helper: positions of `shiftBuckets`. -/
theorem shiftBuckets_getD (bs : List Nat) :
    (∀ i, i < 47 → (shiftBuckets bs).getD i 0 = bs.getD (i + 1) 0)
    ∧ (shiftBuckets bs).getD 47 0 = 0 := by
  constructor
  · intro i hi
    unfold shiftBuckets HISTORY_BUCKETS
    rw [List.getD_append _ _ _ _ (by simpa using hi)]
    simp [List.getD, List.getElem?_map, List.getElem?_range, hi]
  · unfold shiftBuckets HISTORY_BUCKETS
    rw [List.getD_append_right _ _ _ _ (by simp)]
    simp

/-- **C7**: `recordAttempt(success)` bumps the lifetime attempt counter
unconditionally; on success only, it bumps the lifetime success counter and
the newest bucket (index 47), saturating at 255 — `k` successes in one hour
leave the bucket at `min k 255`; and a completed 3600-call `hourlyTick` run
shifts every bucket one position toward index 0, drops the oldest and zeroes
the newest. -/
theorem c7_receptionHistory_behaviour (s : RHState) (now : Nat) (k : Nat)
    (hcb : s.currentBucket = 47) (hlen : s.buckets.length = 48)
    (hfresh : s.buckets.getD 47 0 = 0) (hsec : s.secondsInCurrentHour = 0) :
    (∀ b : Bool, (recordAttempt s b now).totalAttempts = s.totalAttempts + 1)
    ∧ (recordAttempt s true now).totalSuccess = s.totalSuccess + 1
    ∧ (recordAttempt s false now).totalSuccess = s.totalSuccess
    ∧ (recordAttempt s false now).buckets = s.buckets
    ∧ ((fun st => recordAttempt st true now)^[k] s).buckets.getD 47 0 = min k 255
    ∧ (∀ i, i < 47 →
        (hourlyTick^[3600] s).buckets.getD i 0 = s.buckets.getD (i + 1) 0)
    ∧ (hourlyTick^[3600] s).buckets.getD 47 0 = 0
    ∧ (hourlyTick^[3600] s).secondsInCurrentHour = 0 := by
  have h3600 : hourlyTick^[3600] s
      = { s with secondsInCurrentHour := 0, buckets := shiftBuckets s.buckets } := by
    have : (3600 : Nat) = 3599 + 1 := by norm_num
    rw [this, Function.iterate_succ_apply',
      hourlyTick_iter_no_shift 3599 s (by omega)]
    unfold hourlyTick
    rw [if_pos (by show s.secondsInCurrentHour + 3599 + 1 ≥ 3600; omega)]
  refine ⟨?_, ?_, ?_, ?_, ?_, ?_, ?_, ?_⟩
  · intro b; cases b <;> rfl
  · rfl
  · rfl
  · rfl
  · have := recordAttempt_true_iter_bucket now k s hcb hlen (by omega)
    rw [this, hfresh, Nat.zero_add]
  · intro i hi
    rw [h3600]
    exact (shiftBuckets_getD s.buckets).1 i hi
  · rw [h3600]
    exact (shiftBuckets_getD s.buckets).2
  · rw [h3600]

/-- **C7 witness**: the theorem applied to the freshly-initialized history
state with `k = 300` successes. -/
theorem c7_witness :
    (⟨List.replicate 48 0, 47, 0, 0, 0, 0, 0⟩ : RHState).currentBucket = 47
    ∧ ((fun st => recordAttempt st true 5)^[300]
        (⟨List.replicate 48 0, 47, 0, 0, 0, 0, 0⟩ : RHState)).buckets.getD 47 0
        = min 300 255 :=
  ⟨rfl, (c7_receptionHistory_behaviour ⟨List.replicate 48 0, 47, 0, 0, 0, 0, 0⟩ 5 300
    rfl (by simp) (by simp [List.getD]) rfl).2.2.2.2.1⟩

/-- **C8 counterexample**: the daytime failure counter is a `uint8_t`; from
the reachable state (255 consecutive daytime failures, skip latched), one more
daytime failure — neither nighttime arriving nor a success — wraps the counter
back to 0, so the counter is not cleared *only* by nighttime or success. -/
theorem c8_counterexample :
    syncStep ⟨255, true⟩ (SyncEv.fail false) = ⟨0, true⟩
    ∧ (⟨255, true⟩ : SyncSched).daytimeFailures ≠ 0
    ∧ SyncEv.fail false ≠ SyncEv.succ
    ∧ (∀ nev eo : Bool, SyncEv.fail false ≠ SyncEv.loopCheck true nev eo) := by
  refine ⟨rfl, by decide, by decide, ?_⟩
  intro nev eo
  exact fun h => SyncEv.noConfusion h

/-- **C8 (amended)**: from any state with the counter at 0, three daytime
failures set the skip flag (whatever its prior value); from every state with
the flag set — the post-trigger state ⟨3, true⟩ included — no attempt is
started during daytime and the flag stays set; from every flag-set state the
flag is cleared only by a synced nighttime scheduler pass or by a success, and
the failure counter only by those two or by the `uint8_t` wrap of a daytime
failure at counter value 255; a single success clears both from any state. -/
theorem c8_daytime_backoff :
    (∀ s : SyncSched, s.daytimeFailures = 0 →
      (syncStep (syncStep (syncStep s (.fail false)) (.fail false))
        (.fail false)).daytimeSkipActive = true)
    ∧ (∀ (s : SyncSched) (neverSynced elapsedOk : Bool), s.daytimeSkipActive = true →
        (loopSyncCheck s false neverSynced elapsedOk).2 = false
        ∧ (loopSyncCheck s false neverSynced elapsedOk).1.daytimeSkipActive = true)
    ∧ (∀ (s : SyncSched) (e : SyncEv), s.daytimeSkipActive = true →
        (syncStep s e).daytimeSkipActive = false →
        (e = SyncEv.succ ∨ ∃ eo, e = SyncEv.loopCheck true false eo))
    ∧ (∀ (t : SyncSched) (e : SyncEv), t.daytimeFailures < 256 →
        t.daytimeFailures ≠ 0 → (syncStep t e).daytimeFailures = 0 →
        (e = SyncEv.succ ∨ (∃ eo, e = SyncEv.loopCheck true false eo)
          ∨ (t.daytimeFailures = 255 ∧ e = SyncEv.fail false)))
    ∧ (∀ s : SyncSched, (syncStep s SyncEv.succ).daytimeFailures = 0
        ∧ (syncStep s SyncEv.succ).daytimeSkipActive = false) := by
  refine ⟨?_, ?_, ?_, ?_, fun s => ⟨rfl, rfl⟩⟩
  · intro s h0
    simp [syncStep, recordSyncFailureStep, SYNC_DAY_MAX_FAILURES, h0]
  · intro s neverSynced elapsedOk hskip
    cases neverSynced <;>
      simp [loopSyncCheck, getSyncIntervalFlags, hskip]
  · intro s e hskip hcleared
    cases e with
    | fail n =>
      exfalso
      cases n <;> simp [syncStep, recordSyncFailureStep, hskip] at hcleared
    | succ => exact Or.inl rfl
    | loopCheck n nev eo =>
      cases n with
      | false =>
        exfalso
        cases nev <;>
          simp [syncStep, loopSyncCheck, getSyncIntervalFlags, hskip] at hcleared
      | true =>
        cases nev with
        | false => exact Or.inr ⟨eo, rfl⟩
        | true =>
          exfalso
          simp [syncStep, loopSyncCheck, getSyncIntervalFlags, hskip] at hcleared
  · intro t e hbound ht hcleared
    cases e with
    | fail n =>
      cases n with
      | false =>
        refine Or.inr (Or.inr ⟨?_, rfl⟩)
        simp [syncStep, recordSyncFailureStep] at hcleared
        omega
      | true =>
        exfalso
        simp [syncStep, recordSyncFailureStep] at hcleared
        exact ht hcleared
    | succ => exact Or.inl rfl
    | loopCheck n nev eo =>
      cases n with
      | false =>
        exfalso
        cases nev <;>
          simp [syncStep, loopSyncCheck, getSyncIntervalFlags] at hcleared <;>
          exact ht hcleared
      | true =>
        cases nev with
        | false => exact Or.inr (Or.inl ⟨eo, rfl⟩)
        | true =>
          exfalso
          simp [syncStep, loopSyncCheck, getSyncIntervalFlags] at hcleared
          exact ht hcleared

/-- **C8 witness**: the amended theorem instantiated concretely: three daytime
failures from the idle state ⟨0, false⟩ set the flag, the post-trigger state
⟨3, true⟩ starts no daytime attempt and keeps its flag, and one success from
⟨3, true⟩ clears both. -/
theorem c8_witness :
    (syncStep (syncStep (syncStep (⟨0, false⟩ : SyncSched) (SyncEv.fail false))
        (SyncEv.fail false)) (SyncEv.fail false)).daytimeSkipActive = true
    ∧ (loopSyncCheck (⟨3, true⟩ : SyncSched) false false true).2 = false
    ∧ (loopSyncCheck (⟨3, true⟩ : SyncSched) false false true).1.daytimeSkipActive = true
    ∧ (syncStep (⟨3, true⟩ : SyncSched) SyncEv.succ).daytimeFailures = 0
    ∧ (syncStep (⟨3, true⟩ : SyncSched) SyncEv.succ).daytimeSkipActive = false :=
  ⟨c8_daytime_backoff.1 ⟨0, false⟩ rfl,
   (c8_daytime_backoff.2.1 ⟨3, true⟩ false true rfl).1,
   (c8_daytime_backoff.2.1 ⟨3, true⟩ false true rfl).2,
   (c8_daytime_backoff.2.2.2.2 ⟨3, true⟩).1,
   (c8_daytime_backoff.2.2.2.2 ⟨3, true⟩).2⟩

/-- **C9 counterexample**: `getMilliseconds` is not monotone within a tick:
with the accumulator at 0 and the last tick at millis 0, a call at millis 999
returns 999 but a later call at millis 1000 (still no intervening `tick()`)
returns 0. -/
theorem c9_counterexample :
    (999 : Nat) ≤ 1000
    ∧ getMilliseconds ⟨2025, 1, 1, 0, 0, 0, 0, 0, true, 0⟩ 1000
        < getMilliseconds ⟨2025, 1, 1, 0, 0, 0, 0, 0, true, 0⟩ 999 := by
  decide

/-- **C9 (amended)**: `getMilliseconds` is a side-effect-free read returning a
value in 0–999, and two calls within the same tick are monotonically
non-decreasing provided the accumulated millisecond total stays in the same
1000 ms window between them (at a window boundary the value wraps to 0). -/
theorem c9_getMilliseconds_within_window (s : TMState) (now now1 now2 : Nat)
    (hset : s.timeSet = true)
    (h1 : s.lastTickMillis ≤ now1) (h12 : now1 ≤ now2)
    (hbound : s.accumMillis + (now2 - s.lastTickMillis) < 4294967296)
    (hwin : (s.accumMillis + (now1 - s.lastTickMillis)) / 1000
          = (s.accumMillis + (now2 - s.lastTickMillis)) / 1000) :
    getMilliseconds s now ≤ 999
    ∧ (getMillisecondsM s now).2 = s
    ∧ getMilliseconds s now1 ≤ getMilliseconds s now2 := by
  refine ⟨?_, rfl, ?_⟩
  · unfold getMilliseconds
    split
    · omega
    · omega
  · simp only [getMilliseconds, hset]
    norm_num
    omega

/-- **C9 witness**: the amended theorem applied to a fresh state read at
millis 100 and 200. -/
theorem c9_witness :
    getMilliseconds ⟨2025, 1, 1, 0, 0, 0, 0, 0, true, 0⟩ 100
      ≤ getMilliseconds ⟨2025, 1, 1, 0, 0, 0, 0, 0, true, 0⟩ 200 :=
  (c9_getMilliseconds_within_window ⟨2025, 1, 1, 0, 0, 0, 0, 0, true, 0⟩ 0 100 200
    rfl (by decide) (by decide) (by decide) (by decide)).2.2

/-- **C4**: the claim that every ES100 register read issues a full STOP
between the address write and the data read fails on the code: both
`ES100::readRegister` and `ES100::readRegisters` call `endTransmission(false)`,
so the step after the register-address write is a repeated START, not a STOP
(the repository's own `MODIFICATIONS.md` and README document the
`endTransmission(true)` behaviour instead). -/
theorem c4_read_uses_repeated_start :
    readRegisterSendStop = false
    ∧ readRegistersSendStop = false
    ∧ readRegisterBusOps 0x0D
        = [I2CStep.start, I2CStep.addrW 0x32, I2CStep.writeByte 0x0D,
           I2CStep.start, I2CStep.addrR 0x32, I2CStep.readBytes 1, I2CStep.stop]
    ∧ (readRegisterBusOps 0x0D).getD 3 I2CStep.stop = I2CStep.start
    ∧ (readRegistersBusOps 0x04 6).getD 3 I2CStep.stop = I2CStep.start := by
  decide

/-- **C5**: the claim that a restore with under one hour elapsed advances the
clock by the elapsed seconds fails on the code: the replay loop calls
`tick()`, which advances by wall-clock `millis()` deltas, so the back-to-back
calls add nothing.  Restoring 2025-01-01 00:00:00 saved at millis 0 and loaded
at millis 10000 (10 elapsed seconds) leaves the clock at 00:00:00 exactly. -/
theorem c5_replay_does_not_advance :
    (10000 + 4294967296 - 0) % 4294967296 / 1000 = 10
    ∧ loadTimeReplay 2025 1 1 0 0 0 0 10000 = setTime 2025 1 1 0 0 0 10000
    ∧ (loadTimeReplay 2025 1 1 0 0 0 0 10000).second = 0 := by
  have hfix : tick (setTime 2025 1 1 0 0 0 10000) 10000
      = setTime 2025 1 1 0 0 0 10000 := by
    simp only [tick]
    rw [if_neg (by decide)]
    unfold secondsLoop
    rw [dif_neg (by decide)]
    decide
  have hmain : loadTimeReplay 2025 1 1 0 0 0 0 10000 = setTime 2025 1 1 0 0 0 10000 := by
    unfold loadTimeReplay
    rw [if_pos (by norm_num)]
    have h10 : (10000 + 4294967296 - 0) % 4294967296 / 1000 = 10 := by norm_num
    rw [h10]
    exact @Function.iterate_fixed _ (fun s => tick s 10000)
      (setTime 2025 1 1 0 0 0 10000) hfix 10
  exact ⟨by norm_num, hmain, by rw [hmain]; rfl⟩

/-- **C6**: `computeUSDST` evaluates the rule on local *standard* time
(`getLocalTime(offset, false)`); the rule is false in December, January and
February; true in April through October; in March true exactly from 02:00 on
day `1 + ((7 - weekday_of_March_1) mod 7) + 7` (the 2nd Sunday) onward; and in
November true exactly until 02:00 on day
`1 + ((7 - weekday_of_November_1) mod 7)` (the 1st Sunday). -/
theorem c6_computeUSDST_rule (s : TMState) (off : Int) (lt : ClockTime)
    (hset : s.timeSet = true)
    (hlt : getLocalTime s off false = lt) :
    computeUSDST s off = usDSTRule lt
    ∧ ((lt.month = 12 ∨ lt.month = 1 ∨ lt.month = 2) → usDSTRule lt = false)
    ∧ (4 ≤ lt.month → lt.month ≤ 10 → usDSTRule lt = true)
    ∧ (lt.month = 3 →
        (usDSTRule lt = true ↔
          (secondSundayOfMarch lt.year < (lt.day : Int)
            ∨ ((lt.day : Int) = secondSundayOfMarch lt.year ∧ 2 ≤ lt.hour))))
    ∧ (lt.month = 11 →
        (usDSTRule lt = true ↔
          ((lt.day : Int) < firstSundayOfNovember lt.year
            ∨ ((lt.day : Int) = firstSundayOfNovember lt.year ∧ lt.hour < 2)))) := by
  refine ⟨?_, ?_, ?_, ?_, ?_⟩
  · unfold computeUSDST isTimeSet
    rw [if_neg (by simp [hset]), hlt]
  · rintro (hm | hm | hm) <;> (unfold usDSTRule; rw [if_pos (by omega)])
  · intro h4 h10
    unfold usDSTRule
    rw [if_neg (by omega), if_pos (by omega)]
  · intro h3
    unfold usDSTRule
    rw [if_neg (by omega), if_neg (by omega), if_pos h3]
    simp
  · intro h11
    unfold usDSTRule
    rw [if_neg (by omega), if_neg (by omega), if_neg (by omega)]
    simp

/-- **C6 witness**: UTC 2025-03-09 07:00:00 at offset −5 is local standard
time 2025-03-09 02:00:00, the 2nd Sunday of March 2025 at 02:00, and the
theorem instantiates there. -/
theorem c6_witness :
    computeUSDST ⟨2025, 3, 9, 7, 0, 0, 0, 0, true, 0⟩ (-5)
      = usDSTRule ⟨2025, 3, 9, 2, 0, 0⟩
    ∧ ((⟨2025, 3, 9, 2, 0, 0⟩ : ClockTime).month = 3 →
        (usDSTRule ⟨2025, 3, 9, 2, 0, 0⟩ = true ↔
          (secondSundayOfMarch 2025 < (9 : Int)
            ∨ ((9 : Int) = secondSundayOfMarch 2025 ∧ 2 ≤ (2 : Nat))))) := by
  have hlt : getLocalTime ⟨2025, 3, 9, 7, 0, 0, 0, 0, true, 0⟩ (-5) false
      = ⟨2025, 3, 9, 2, 0, 0⟩ := by
    unfold getLocalTime getUTCTime
    norm_num
    unfold rollBack
    rw [dif_neg (by norm_num)]
    unfold rollForward
    rw [dif_neg (by norm_num)]
    decide
  have h := c6_computeUSDST_rule ⟨2025, 3, 9, 7, 0, 0, 0, 0, true, 0⟩ (-5)
    ⟨2025, 3, 9, 2, 0, 0⟩ rfl hlt
  exact ⟨h.1, h.2.2.2.1⟩

/-- Helper: a year is worth a positive number of seconds. -/
theorem secondsInYear_pos (year : Nat) : 0 < secondsInYear year := by
  unfold secondsInYear
  split <;> norm_num

/-- Helper: a month is worth a positive number of seconds (the out-of-range
default 30 included). -/
theorem secondsInMonth_pos (year month : Nat) : 0 < secondsInMonth year month := by
  unfold secondsInMonth daysInMonth
  split
  · norm_num
  · split
    · norm_num
    · rename_i h1 h2
      push_neg at h1
      obtain ⟨hlo, hhi⟩ := h1
      interval_cases month <;> norm_num [DAYS_IN_MONTH]

/-- Helper: peel the lowest year off the year-seconds sum. -/
theorem sumYearSecondsFrom_peel (lo hi : Nat) (h : lo < hi) :
    sumYearSecondsFrom lo hi = secondsInYear lo + sumYearSecondsFrom (lo + 1) hi := by
  conv_lhs => rw [sumYearSecondsFrom]
  rw [if_pos h]

/-- Helper: the empty year-seconds sum. -/
theorem sumYearSecondsFrom_self (a : Nat) : sumYearSecondsFrom a a = 0 := by
  conv_lhs => rw [sumYearSecondsFrom]
  rw [if_neg (Nat.lt_irrefl a)]

/-- Helper: peel the lowest month off the month-seconds sum. -/
theorem sumMonthSecondsFrom_peel (year lo hi : Nat) (h : lo < hi) :
    sumMonthSecondsFrom year lo hi
      = secondsInMonth year lo + sumMonthSecondsFrom year (lo + 1) hi := by
  conv_lhs => rw [sumMonthSecondsFrom]
  rw [if_pos h]

/-- Helper: the twelve months of a year sum to `secondsInYear`. -/
theorem sumMonthSecondsFrom_total (year : Nat) :
    sumMonthSecondsFrom year 1 13 = secondsInYear year := by
  have h13 : sumMonthSecondsFrom year 13 13 = 0 := by
    conv_lhs => rw [sumMonthSecondsFrom]
    rw [if_neg (Nat.lt_irrefl 13)]
  rw [sumMonthSecondsFrom_peel year 1 13 (by norm_num),
      sumMonthSecondsFrom_peel year 2 13 (by norm_num),
      sumMonthSecondsFrom_peel year 3 13 (by norm_num),
      sumMonthSecondsFrom_peel year 4 13 (by norm_num),
      sumMonthSecondsFrom_peel year 5 13 (by norm_num),
      sumMonthSecondsFrom_peel year 6 13 (by norm_num),
      sumMonthSecondsFrom_peel year 7 13 (by norm_num),
      sumMonthSecondsFrom_peel year 8 13 (by norm_num),
      sumMonthSecondsFrom_peel year 9 13 (by norm_num),
      sumMonthSecondsFrom_peel year 10 13 (by norm_num),
      sumMonthSecondsFrom_peel year 11 13 (by norm_num),
      sumMonthSecondsFrom_peel year 12 13 (by norm_num),
      h13]
  cases h : isLeapYear year <;>
    · simp only [secondsInMonth, daysInMonth, DAYS_IN_MONTH, secondsInYear, h]
      norm_num

/-- Helper: specification of the year loop of `setUnixTime`: it finds the
unique year `y ≥ start` with the residual `r < secondsInYear y` such that the
years in `[start, y)` plus `r` reconstitute the input. -/
theorem countYears_spec (seconds : Nat) :
    ∀ year y r, countYears seconds year = (y, r) →
      sumYearSecondsFrom year y + r = seconds
      ∧ r < secondsInYear y ∧ year ≤ y := by
  induction seconds using Nat.strong_induction_on with
  | _ seconds ih =>
    intro year y r hcy
    rw [countYears] at hcy
    split at hcy
    · rename_i h
      obtain ⟨rfl, rfl⟩ := Prod.mk.injEq .. ▸ hcy
      refine ⟨?_, h, Nat.le_refl _⟩
      rw [sumYearSecondsFrom_self]
      omega
    · rename_i h
      have hpos := secondsInYear_pos year
      have hlt : seconds - secondsInYear year < seconds := by omega
      obtain ⟨ha, hb, hc⟩ := ih _ hlt (year + 1) y r hcy
      refine ⟨?_, hb, by omega⟩
      rw [sumYearSecondsFrom_peel year y (by omega)]
      omega

/-- Helper: specification of the month loop of `setUnixTime`: under the
invariant that the residual fits inside the remaining months of the year, it
finds the month `m` in `[month, 12]` with residual `r < secondsInMonth y m`
reconstituting the input. -/
theorem countMonths_spec (year : Nat) (seconds : Nat) :
    ∀ month m r, 1 ≤ month → month ≤ 12 →
      seconds < sumMonthSecondsFrom year month 13 →
      countMonths year seconds month = (m, r) →
      sumMonthSecondsFrom year month m + r = seconds
      ∧ r < secondsInMonth year m ∧ month ≤ m ∧ m ≤ 12 := by
  induction seconds using Nat.strong_induction_on with
  | _ seconds ih =>
    intro month m r h1 h12 hfit hcm
    rw [countMonths] at hcm
    split at hcm
    · omega
    · split at hcm
      · rename_i hgt hlt
        obtain ⟨rfl, rfl⟩ := Prod.mk.injEq .. ▸ hcm
        refine ⟨?_, hlt, Nat.le_refl _, h12⟩
        conv_lhs => rw [sumMonthSecondsFrom]
        rw [if_neg (Nat.lt_irrefl month)]
        omega
      · rename_i hgt hge
        have hpos := secondsInMonth_pos year month
        have hm12 : month < 12 := by
          rcases Nat.lt_or_ge month 12 with h | h
          · exact h
          · exfalso
            have hm : month = 12 := by omega
            subst hm
            rw [sumMonthSecondsFrom_peel year 12 13 (by norm_num)] at hfit
            conv at hfit => rw [sumMonthSecondsFrom]
            rw [if_neg (by norm_num)] at hfit
            omega
        have hlt : seconds - secondsInMonth year month < seconds := by omega
        rw [sumMonthSecondsFrom_peel year month 13 (by omega)] at hfit
        obtain ⟨ha, hb, hc, hd⟩ := ih _ hlt (month + 1) m r (by omega) (by omega)
          (by omega) hcm
        refine ⟨?_, hb, by omega, hd⟩
        rw [sumMonthSecondsFrom_peel year month m (by omega)]
        omega

/-- **C2**: for every Unix timestamp `t` in the supported 1970–2099 range
(`t < 4102444800`, the timestamp of 2100-01-01), `setUnixTime t` followed by
`getUnixTime` returns exactly `t`. -/
theorem c2_setUnix_getUnix_roundtrip (t now : Nat) (ht : t < 4102444800) :
    getUnixTime (setUnixTime t now) = t := by
  rcases hcy : countYears t 1970 with ⟨y, r⟩
  obtain ⟨hy1, hy2, hy3⟩ := countYears_spec t 1970 y r hcy
  have htot := sumMonthSecondsFrom_total y
  rcases hcm : countMonths y r 1 with ⟨m, r2⟩
  obtain ⟨hm1, hm2, hm3, hm4⟩ :=
    countMonths_spec y r 1 m r2 (by norm_num) (by norm_num) (by omega) hcm
  simp only [setUnixTime, unixToDate, hcy, hcm, setTime, getUnixTime]
  omega

/-- **C2 witness**: the round-trip at `t = 0` and at the 2025-01-01 timestamp. -/
theorem c2_witness :
    (1735689600 : Nat) < 4102444800
    ∧ getUnixTime (setUnixTime 1735689600 0) = 1735689600 :=
  ⟨by norm_num, c2_setUnix_getUnix_roundtrip 1735689600 0 (by norm_num)⟩

end WWVB
